import Mathlib

/-!
Shallow embedding of the event-tracking core of `src/index.tsx`
(a Discord activity-tracker plugin).

The module-level mutable collections of the source (`activityLogs`,
`trackedUserIds`, `processedMessageIds`, `lastKnownStatus`) become the
fields of an explicit `TrackerState`; each Flux handler becomes a pure
state-transition function.  Host collaborators (the `UserStore`,
`ChannelStore` and `GuildStore` lookups, `Date.now()`, and the
`autoTrackAll` setting) are packaged into an `Env` record.  JavaScript
numbers that the source only adds, subtracts and compares are modelled
as `Int`; the one floating-point accumulation (`totalVoiceMinutes`) is
modelled exactly over `ℚ` with `Math.round` as `Rat.floor (q + 1/2)`.
JS truthiness of the optional string/number fields is modelled with
`Option` (`none` = `null`/`undefined`/empty).
-/

namespace ActivityTracker

/-- Activity payload carried by a presence update (source `interface Activity`;
the fields not read by the core logic are kept as optional data). -/
structure Activity where
  name : String
  type : Nat
  details : Option String := none
  state : Option String := none
deriving DecidableEq

/-- Voice transition tag: the `action` field of a voice log entry
(`"join" | "leave" | "move"` in the source). -/
inductive VoiceAction where
  | join
  | leave
  | move
deriving DecidableEq

/-- Voice payload of a log entry (source `ActivityLog.voiceChannel`). -/
structure VoiceChannelInfo where
  channelId : String
  channelName : String
  action : VoiceAction
  guildId : String
  guildName : String
deriving DecidableEq

/-- Message payload of a log entry (source `ActivityLog.message`). -/
structure MessageInfo where
  content : String
  channelId : String
  channelName : Option String := none
  guildId : Option String := none
  guildName : Option String := none
deriving DecidableEq

/-- Status payload of a log entry (source `ActivityLog.status`); the raw
`clientStatus` object is abstracted to the fact of its presence. -/
structure StatusInfo where
  status : String
  clientStatus : Bool := false
deriving DecidableEq

/-- Discriminator of a log entry (source `ActivityLog.type`). -/
inductive LogType where
  | activity
  | voice
  | message
  | status
deriving DecidableEq

/-- One record of the bounded log (source `interface ActivityLog`): a type
tag plus optional per-category payloads, exactly as in the source. -/
structure ActivityLog where
  userId : String
  username : String
  timestamp : Int
  type : LogType
  activities : Option (List Activity) := none
  voiceChannel : Option VoiceChannelInfo := none
  message : Option MessageInfo := none
  status : Option StatusInfo := none
deriving DecidableEq

/-- The resolved user returned by `UserStore.getUser` (only `username` is
read by the ingestion pipeline). -/
structure UserInfo where
  username : String
deriving DecidableEq

/-- The module-level mutable state of the source, gathered into a record:
`activityLogs` (the bounded log, insertion order), `trackedUserIds`
(the `Set<string>` of tracked users), `processedMessageIds` (the dedup
`Set<string>`, kept in insertion order as a duplicate-free list), and
`lastKnownStatus` (the `Map<string, string>`, kept as an insertion-ordered
association list). -/
structure TrackerState where
  activityLogs : List ActivityLog := []
  trackedUserIds : List String := []
  processedMessageIds : List String := []
  lastKnownStatus : List (String × String) := []
deriving DecidableEq

/-- The state at module initialisation: all four collections empty. -/
def initialState : TrackerState := {}

/-- Host collaborators and ambient settings read by the handlers:
`settings.store.autoTrackAll`, `Date.now()` at handling time, and the
`UserStore` / `ChannelStore` / `GuildStore` lookups (name resolution). -/
structure Env where
  autoTrackAll : Bool
  nowTs : Int
  getUser : String → Option UserInfo
  getChannelName : String → Option String
  getGuildName : String → Option String

/-- Source constant `MAX_LOGS = 1000`. -/
def MAX_LOGS : Nat := 1000

/-- Source fragment `if (activityLogs.length > MAX_LOGS) activityLogs.shift();`
(a single conditional removal of the oldest entry). -/
def evictOverflow (l : List ActivityLog) : List ActivityLog :=
  if l.length > MAX_LOGS then l.tail else l

/-- JS `Map.prototype.set`: overwrite the value of an existing key in place,
otherwise append the binding (insertion order preserved). -/
def mapSet (m : List (String × String)) (k v : String) : List (String × String) :=
  if (m.lookup k).isSome then m.map (fun p => if p.1 = k then (k, v) else p)
  else m ++ [(k, v)]

/-- One element of `data.updates` in a `PRESENCE_UPDATES` dispatch:
`update.user.id`, `update.status`, truthiness of `update.clientStatus`,
and `update.activities` (defaulted to `[]` as by `|| []`). -/
structure PresenceUpdate where
  userId : Option String
  status : Option String := none
  clientStatus : Bool := false
  activities : List Activity := []

/-- The status log entry built inside `handlePresenceUpdates`. -/
def statusEntryOf (env : Env) (uid : String) (user : UserInfo) (currentStatus : String) :
    ActivityLog :=
  { userId := uid, username := user.username, timestamp := env.nowTs,
    type := LogType.status,
    status := some { status := currentStatus, clientStatus := true } }

/-- The activity log entry built inside `handlePresenceUpdates`. -/
def activityEntryOf (env : Env) (uid : String) (user : UserInfo)
    (activities : List Activity) : ActivityLog :=
  { userId := uid, username := user.username, timestamp := env.nowTs,
    type := LogType.activity, activities := some activities }

/-- Body of the `for (const update of data.updates)` loop of
`handlePresenceUpdates`: admission check, `UserStore` lookup, conditional
status entry (requiring a changed status value and a truthy
`update.clientStatus`), conditional activity entry, then the single
end-of-iteration overflow eviction. -/
def presenceStep (env : Env) (s : TrackerState) (u : PresenceUpdate) : TrackerState :=
  match u.userId with
  | none => s
  | some uid =>
    if env.autoTrackAll || s.trackedUserIds.contains uid then
      match env.getUser uid with
      | none => s
      | some user =>
        let previousStatus := s.lastKnownStatus.lookup uid
        let s1 :=
          match u.status with
          | some currentStatus =>
            if some currentStatus ≠ previousStatus ∧ u.clientStatus = true then
              { s with
                lastKnownStatus := mapSet s.lastKnownStatus uid currentStatus,
                activityLogs := s.activityLogs ++ [statusEntryOf env uid user currentStatus] }
            else s
          | none => s
        let s2 :=
          if u.activities.length > 0 then
            { s1 with activityLogs :=
                s1.activityLogs ++ [activityEntryOf env uid user u.activities] }
          else s1
        { s2 with activityLogs := evictOverflow s2.activityLogs }
    else s

/-- Source `handlePresenceUpdates`: fold `presenceStep` over `data.updates`
(an absent or empty `updates` array leaves the state unchanged). -/
def handlePresenceUpdates (env : Env) (updates : List PresenceUpdate)
    (s : TrackerState) : TrackerState :=
  updates.foldl (presenceStep env) s

/-- Source classification expression of `handleVoiceStateUpdate`:
`!prev && current ? "join" : prev && !current ? "leave" : "move"`. -/
def classifyAction (prevChannelId currentChannelId : Option String) : VoiceAction :=
  if prevChannelId.isNone ∧ currentChannelId.isSome then VoiceAction.join
  else if prevChannelId.isSome ∧ currentChannelId.isNone then VoiceAction.leave
  else VoiceAction.move

/-- One element of `data.voiceStates`: `userId`, `oldChannelId`, `channelId`
and `guildId` as delivered by the raw event (falsy values as `none`). -/
structure VoiceState where
  userId : String
  oldChannelId : Option String := none
  channelId : Option String := none
  guildId : Option String := none

/-- The voice log entry built inside `handleVoiceStateUpdate`, including the
fallback labels used when channel/guild name resolution misses (the JS
template literal prints `null` / `undefined` for absent identifiers). -/
def voiceEntryOf (env : Env) (v : VoiceState) (user : UserInfo) : ActivityLog :=
  let prevChannelId := v.oldChannelId
  let currentChannelId := v.channelId
  let lookupId := currentChannelId.or prevChannelId
  let channelName := lookupId.bind env.getChannelName
  let guildName := v.guildId.bind env.getGuildName
  { userId := v.userId, username := user.username, timestamp := env.nowTs,
    type := LogType.voice,
    voiceChannel := some {
      channelId := lookupId.getD "unknown",
      channelName := channelName.getD
        ("Channel ID: " ++ (match lookupId with | some c => c | none => "null")),
      action := classifyAction prevChannelId currentChannelId,
      guildId := v.guildId.getD "unknown",
      guildName := guildName.getD
        ("Server ID: " ++ (match v.guildId with | some g => g | none => "undefined")) } }

/-- Body of the `voiceStates.forEach` loop of `handleVoiceStateUpdate`:
admission check, `UserStore` lookup, unconditional push of the classified
voice entry, then the overflow eviction.  (The notification branch only
calls the external sink and mutates no tracker state.) -/
def voiceStep (env : Env) (s : TrackerState) (v : VoiceState) : TrackerState :=
  if env.autoTrackAll || s.trackedUserIds.contains v.userId then
    match env.getUser v.userId with
    | none => s
    | some user =>
      { s with activityLogs := evictOverflow (s.activityLogs ++ [voiceEntryOf env v user]) }
  else s

/-- Source `handleVoiceStateUpdate`: fold `voiceStep` over `data.voiceStates`. -/
def handleVoiceStateUpdate (env : Env) (voiceStates : List VoiceState)
    (s : TrackerState) : TrackerState :=
  voiceStates.foldl (voiceStep env) s

/-- The `message` object of a `MESSAGE_CREATE` dispatch: author id and name,
optional `message.id`, content, `channel_id` and optional `guild_id`. -/
structure MessageEvent where
  authorId : Option String
  authorUsername : String := ""
  id : Option String := none
  content : String := ""
  channelId : String := ""
  guildId : Option String := none

/-- The message log entry built inside `handleMessageCreate`. -/
def messageEntryOf (env : Env) (m : MessageEvent) (uid : String) : ActivityLog :=
  let channelName := env.getChannelName m.channelId
  let guildName := m.guildId.bind env.getGuildName
  { userId := uid, username := m.authorUsername, timestamp := env.nowTs,
    type := LogType.message,
    message := some {
      content := m.content, channelId := m.channelId,
      channelName := some (channelName.getD ("Channel ID: " ++ m.channelId)),
      guildId := m.guildId,
      guildName := some (guildName.getD
        (match m.guildId with | some g => "Server ID: " ++ g | none => "DM")) } }

/-- Source `handleMessageCreate`: author check, admission check, dedup check
against `processedMessageIds` (skip if already seen; otherwise record the
id), push of the message entry with overflow eviction, and finally the
dedup-window trim (`size > 1000` → keep the most recent 500, in insertion
order, via `Array.from(...).slice(-500)`). -/
def handleMessageCreate (env : Env) (m : MessageEvent) (s : TrackerState) : TrackerState :=
  match m.authorId with
  | none => s
  | some uid =>
    if env.autoTrackAll || s.trackedUserIds.contains uid then
      if (match m.id with | some i => s.processedMessageIds.contains i | none => false) then s
      else
        let s0 :=
          match m.id with
          | some i => { s with processedMessageIds := s.processedMessageIds ++ [i] }
          | none => s
        let s1 := { s0 with activityLogs := evictOverflow (s0.activityLogs ++ [messageEntryOf env m uid]) }
        if s1.processedMessageIds.length > 1000 then
          { s1 with processedMessageIds :=
              s1.processedMessageIds.drop (s1.processedMessageIds.length - 500) }
        else s1
    else s

/-- The net effect of one `handleMessageCreate` call on the dedup window
(the `observe(messageId) -> bool` contract of the spec): reject an already
seen id; otherwise record it and, if the window now exceeds 1000 ids, keep
only the 500 most recently inserted ones. -/
def observe (i : String) (w : List String) : Bool × List String :=
  if w.contains i then (false, w)
  else
    let w1 := w ++ [i]
    if w1.length > 1000 then (true, w1.drop (w1.length - 500)) else (true, w1)

/-- Fold `observe` over a call sequence of message ids, keeping the window. -/
def ingestAll (l : List String) (w : List String) : List String :=
  l.foldl (fun w i => (observe i w).2) w

/-- The two persisted string fields read by `loadFromSettings`
(`settings.store.trackedUsers` and `settings.store.activityLogs`; the
empty string is the falsy "missing" value). -/
structure SettingsStore where
  trackedUsers : String := ""
  activityLogs : String := ""

/-- Source `loadFromSettings`: inside one `try`, parse-and-assign the
tracked-id set, then parse-and-assign the log; a thrown parse failure is
caught and leaves the state as it was at the point of the throw (so an
assignment already made before the failure is kept).  `JSON.parse` (plus
the `new Set(...)` conversion) is an opaque host function, passed in as
the `parseIds` / `parseLogs` parameters with `none` modelling a throw. -/
def loadFromSettings (parseIds : String → Option (List String))
    (parseLogs : String → Option (List ActivityLog))
    (store : SettingsStore) (s : TrackerState) : TrackerState :=
  if store.trackedUsers ≠ "" then
    match parseIds store.trackedUsers with
    | none => s
    | some ids =>
      let s1 := { s with trackedUserIds := ids }
      if store.activityLogs ≠ "" then
        match parseLogs store.activityLogs with
        | none => s1
        | some logs => { s1 with activityLogs := logs }
      else s1
  else
    if store.activityLogs ≠ "" then
      match parseLogs store.activityLogs with
      | none => s
      | some logs => { s with activityLogs := logs }
    else s

/-- JS `Math.round` on the (here exactly represented) accumulated value:
`floor(x + 0.5)`. -/
def jsRound (q : ℚ) : Int := Int.floor (q + 1 / 2)

/-- Body of the `voiceLogs.forEach` accumulation of `calculateStats`:
on `action === "join"` record the timestamp as `lastJoinTime`; on
`action === "leave" && lastJoinTime` (JS numeric truthiness: `null` and
`0` both fail the test) add `(timestamp - lastJoinTime) / (1000 * 60)`
minutes and clear the marker; anything else leaves the pair unchanged. -/
def voiceScanStep (acc : ℚ × Option Int) (log : ActivityLog) : ℚ × Option Int :=
  match log.voiceChannel with
  | some vc =>
    match vc.action with
    | VoiceAction.join => (acc.1, some log.timestamp)
    | VoiceAction.leave =>
      match acc.2 with
      | some t =>
        if t ≠ 0 then (acc.1 + ((log.timestamp - t : ℤ) : ℚ) / (1000 * 60), none)
        else acc
      | none => acc
    | VoiceAction.move => acc
  | none => acc

/-- Increment one bucket of the hour histogram (`hourCounts[hour]++`). -/
def bumpHour (m : Nat → Nat) (h : Nat) : Nat → Nat :=
  fun h2 => if h2 = h then m h2 + 1 else m h2

/-- The hour histogram loop of `calculateStats`: buckets start at 0 (the
source initialises indices 0–23; the local-hour function always lands
there) and each entry increments the bucket of its local hour.  The
timestamp-to-local-hour conversion `new Date(ts).getHours()` is a host
(timezone-dependent) function, passed in as `hourOf`. -/
def hourCountsOf (hourOf : Int → Nat) (logs : List ActivityLog) : Nat → Nat :=
  logs.foldl (fun m log => bumpHour m (hourOf log.timestamp)) (fun _ => 0)

/-- Stable insertion of a `(hour, count)` pair into a list sorted by count
descending: a pair moves ahead only of strictly smaller counts, exactly the
guarantee of the (stable) JS `sort((a, b) => b - a)` comparator. -/
def insertDesc (x : Nat × Nat) : List (Nat × Nat) → List (Nat × Nat)
  | [] => [x]
  | y :: ys => if x.2 ≥ y.2 then x :: y :: ys else y :: insertDesc x ys

/-- Stable sort by count descending (the ECMAScript `Array.prototype.sort`
contract fixes only sortedness and stability; any stable algorithm is a
faithful model). -/
def sortDesc (l : List (Nat × Nat)) : List (Nat × Nat) :=
  l.foldr insertDesc []

/-- Source `Object.entries(hourCounts).sort(([, a], [, b]) => b - a)[0]`:
the 24 buckets are enumerated in ascending hour order (integer-keyed JS
object property order), stably sorted by count descending, and the first
element is taken. -/
def mostActiveHourOf (counts : Nat → Nat) : Option (Nat × Nat) :=
  (sortDesc ((List.range 24).map (fun h => (h, counts h)))).head?

/-- Increment one cell of the day×hour heatmap. -/
def bumpKey (m : Nat × Nat → Nat) (k : Nat × Nat) : Nat × Nat → Nat :=
  fun k2 => if k2 = k then m k2 + 1 else m k2

/-- The scope filter at the top of `calculateStats`:
`userId ? logs.filter(l => l.userId === userId) : logs`. -/
def scopedLogs (logs : List ActivityLog) (userId : Option String) : List ActivityLog :=
  match userId with
  | some uid => logs.filter (fun l => l.userId == uid)
  | none => logs

/-- The statistics record returned by `calculateStats`. -/
structure Stats where
  messageCount : Nat
  activityCount : Nat
  voiceCount : Nat
  statusCount : Nat
  totalLogs : Nat
  mostActiveHour : Option (Nat × Nat)
  hourCounts : Nat → Nat
  totalVoiceMinutes : Int
  heatmapData : Nat × Nat → Nat

/-- Source `calculateStats` (dashboard component): per-category counts,
hour histogram with busiest hour, approximate voice minutes (accumulated
over the voice entries in log order, then `Math.round`ed), and the
day×hour heatmap.  `hourOf` / `dayOf` model `getHours()` / `getDay()`. -/
def calculateStats (hourOf : Int → Nat) (dayOf : Int → Nat)
    (logs : List ActivityLog) (userId : Option String) : Stats :=
  let userSpecificLogs := scopedLogs logs userId
  let hourCounts := hourCountsOf hourOf userSpecificLogs
  let voiceLogs := userSpecificLogs.filter (fun l => l.type == LogType.voice)
  let scan := voiceLogs.foldl voiceScanStep (0, none)
  { messageCount := (userSpecificLogs.filter (fun l => l.type == LogType.message)).length,
    activityCount := (userSpecificLogs.filter (fun l => l.type == LogType.activity)).length,
    voiceCount := voiceLogs.length,
    statusCount := (userSpecificLogs.filter (fun l => l.type == LogType.status)).length,
    totalLogs := userSpecificLogs.length,
    mostActiveHour := mostActiveHourOf hourCounts,
    hourCounts := hourCounts,
    totalVoiceMinutes := jsRound scan.1,
    heatmapData := userSpecificLogs.foldl
      (fun m log => bumpKey m (dayOf log.timestamp, hourOf log.timestamp)) (fun _ => 0) }

/-! ## Shared helper lemmas and concrete fixtures -/

/-- A freshly appended entry survives the overflow eviction: the eviction
removes the oldest entry, never the newest. -/
lemma evictOverflow_append_getLast (l : List ActivityLog) (e : ActivityLog) :
    (evictOverflow (l ++ [e])).getLast? = some e := by
  unfold evictOverflow
  split
  next h =>
    cases l with
    | nil => simp [MAX_LOGS] at h
    | cons a l' => simp
  next h => simp

/-- Voice handler in the admitted, user-resolved case: the entry is pushed
and the state is otherwise untouched. -/
lemma voiceStep_eq (env : Env) (s : TrackerState) (v : VoiceState) (user : UserInfo)
    (htrack : (env.autoTrackAll || s.trackedUserIds.contains v.userId) = true)
    (huser : env.getUser v.userId = some user) :
    voiceStep env s v =
      { s with activityLogs := evictOverflow (s.activityLogs ++ [voiceEntryOf env v user]) } := by
  unfold voiceStep
  rw [htrack, huser]
  simp

/-- The resolved test user. -/
def userAlice : UserInfo := { username := "alice" }

/-- Test environment: user `u1` resolvable, channel `C1` named `General`,
track-all off. -/
def envW : Env :=
  { autoTrackAll := false, nowTs := 5,
    getUser := fun uid => if uid = "u1" then some userAlice else none,
    getChannelName := fun c => if c = "C1" then some "General" else none,
    getGuildName := fun _ => none }

/-- Test state: `u1` tracked, everything else empty. -/
def sW : TrackerState := { trackedUserIds := ["u1"] }

/-- A raw voice state: `u1` joins channel `C1` (no previous channel). -/
def vJoin : VoiceState := { userId := "u1", oldChannelId := none, channelId := some "C1" }

/-! ## C4 — voice transition classification -/

/-- C4: every admitted voice-state record yields one appended voice entry
whose `action` is computed by `classifyAction` from the
`(previousChannelId, currentChannelId)` pair, and `classifyAction` maps
(absent, present) to Join, (present, absent) to Leave, and two different
present channels to Move. -/
theorem voice_classification (env : Env) (s : TrackerState) (v : VoiceState) (user : UserInfo)
    (htrack : (env.autoTrackAll || s.trackedUserIds.contains v.userId) = true)
    (huser : env.getUser v.userId = some user) :
    (voiceStep env s v).activityLogs =
      evictOverflow (s.activityLogs ++ [voiceEntryOf env v user]) ∧
    ((voiceEntryOf env v user).voiceChannel.map VoiceChannelInfo.action) =
      some (classifyAction v.oldChannelId v.channelId) ∧
    (∀ x : String, classifyAction none (some x) = VoiceAction.join) ∧
    (∀ x : String, classifyAction (some x) none = VoiceAction.leave) ∧
    (∀ x y : String, x ≠ y → classifyAction (some x) (some y) = VoiceAction.move) := by
  refine ⟨?_, ?_, ?_, ?_, ?_⟩
  · rw [voiceStep_eq env s v user htrack huser]
  · simp [voiceEntryOf]
  · intro x; simp [classifyAction]
  · intro x; simp [classifyAction]
  · intro x y _; simp [classifyAction]

/-- Witness for C4 at a concrete join event. -/
theorem voice_classification_witness :
    ((envW.autoTrackAll || sW.trackedUserIds.contains vJoin.userId) = true) ∧
    (envW.getUser vJoin.userId = some userAlice) ∧
    (voiceStep envW sW vJoin).activityLogs =
      evictOverflow (sW.activityLogs ++ [voiceEntryOf envW vJoin userAlice]) ∧
    classifyAction none (some "C1") = VoiceAction.join := by
  refine ⟨by decide, by decide, ?_, ?_⟩
  · exact (voice_classification envW sW vJoin userAlice (by decide) (by decide)).1
  · exact (voice_classification envW sW vJoin userAlice (by decide) (by decide)).2.2.1 "C1"

/-! ## C10 — equal previous/current channel still logs a Move -/

/-- C10: when the raw record carries equal previous and current channel ids
(including both absent), the handler still appends a voice entry and it is
classified Move; no equality check suppresses the logging. -/
theorem voice_move_on_equal_channels (env : Env) (s : TrackerState) (v : VoiceState)
    (user : UserInfo)
    (htrack : (env.autoTrackAll || s.trackedUserIds.contains v.userId) = true)
    (huser : env.getUser v.userId = some user)
    (heq : v.oldChannelId = v.channelId) :
    (voiceStep env s v).activityLogs =
      evictOverflow (s.activityLogs ++ [voiceEntryOf env v user]) ∧
    (voiceStep env s v).activityLogs.getLast? = some (voiceEntryOf env v user) ∧
    (voiceEntryOf env v user).type = LogType.voice ∧
    ((voiceEntryOf env v user).voiceChannel.map VoiceChannelInfo.action) =
      some VoiceAction.move := by
  have hlogs : (voiceStep env s v).activityLogs =
      evictOverflow (s.activityLogs ++ [voiceEntryOf env v user]) := by
    rw [voiceStep_eq env s v user htrack huser]
  refine ⟨hlogs, ?_, rfl, ?_⟩
  · rw [hlogs]; exact evictOverflow_append_getLast _ _
  · have hcl : classifyAction v.oldChannelId v.channelId = VoiceAction.move := by
      rw [heq]; cases v.channelId <;> simp [classifyAction]
    simp [voiceEntryOf, hcl]

/-- The same-channel move event used as concrete input for C10. -/
def vSame : VoiceState := { userId := "u1", oldChannelId := some "C1", channelId := some "C1" }

/-- Witness for C10 at a concrete event with `oldChannelId = channelId`. -/
theorem voice_move_on_equal_channels_witness :
    ((envW.autoTrackAll || sW.trackedUserIds.contains vSame.userId) = true) ∧
    (envW.getUser vSame.userId = some userAlice) ∧
    (vSame.oldChannelId = vSame.channelId) ∧
    ((voiceStep envW sW vSame).activityLogs.getLast? = some (voiceEntryOf envW vSame userAlice) ∧
     ((voiceEntryOf envW vSame userAlice).voiceChannel.map VoiceChannelInfo.action) =
       some VoiceAction.move) := by
  refine ⟨by decide, by decide, by decide, ?_, ?_⟩
  · exact (voice_move_on_equal_channels envW sW vSame userAlice (by decide) (by decide)
      (by decide)).2.1
  · exact (voice_move_on_equal_channels envW sW vSame userAlice (by decide) (by decide)
      (by decide)).2.2.2

/-! ## C5 — there is no per-subject last-voice-channel state -/

/-- Counterexample to C5: after `u1` joins channel `C1`, every state
component other than the log is exactly as before, and in particular no
per-subject record holds `C1` as the subject's current channel — the
tracker state (which consists of exactly the four listed collections)
keeps no `lastVoiceChannelId`. -/
theorem no_last_voice_channel_counterexample :
    (voiceStep envW sW vJoin).trackedUserIds = ["u1"] ∧
    (voiceStep envW sW vJoin).lastKnownStatus = [] ∧
    (voiceStep envW sW vJoin).processedMessageIds = [] ∧
    (∀ p ∈ (voiceStep envW sW vJoin).lastKnownStatus, p.2 ≠ "C1") := by
  refine ⟨by decide, by decide, by decide, ?_⟩
  intro p hp
  have h : (voiceStep envW sW vJoin).lastKnownStatus = [] := by decide
  rw [h] at hp
  cases hp

/-- C5 amended: the handler keeps no per-subject voice-channel state — an
admitted voice event changes only the log (by the appended classified
entry), leaving the status map, the tracked set and the dedup window
untouched; the previous channel used for classification is the event's own
`oldChannelId` field. -/
theorem voice_event_frame (env : Env) (s : TrackerState) (v : VoiceState) (user : UserInfo)
    (htrack : (env.autoTrackAll || s.trackedUserIds.contains v.userId) = true)
    (huser : env.getUser v.userId = some user) :
    (voiceStep env s v).lastKnownStatus = s.lastKnownStatus ∧
    (voiceStep env s v).trackedUserIds = s.trackedUserIds ∧
    (voiceStep env s v).processedMessageIds = s.processedMessageIds ∧
    (voiceStep env s v).activityLogs =
      evictOverflow (s.activityLogs ++ [voiceEntryOf env v user]) := by
  rw [voiceStep_eq env s v user htrack huser]
  exact ⟨rfl, rfl, rfl, rfl⟩

/-- Witness for the amended C5 at the concrete join event. -/
theorem voice_event_frame_witness :
    ((envW.autoTrackAll || sW.trackedUserIds.contains vJoin.userId) = true) ∧
    (envW.getUser vJoin.userId = some userAlice) ∧
    ((voiceStep envW sW vJoin).lastKnownStatus = sW.lastKnownStatus ∧
     (voiceStep envW sW vJoin).trackedUserIds = sW.trackedUserIds ∧
     (voiceStep envW sW vJoin).processedMessageIds = sW.processedMessageIds) := by
  refine ⟨by decide, by decide, ?_⟩
  have h := voice_event_frame envW sW vJoin userAlice (by decide) (by decide)
  exact ⟨h.1, h.2.1, h.2.2.1⟩

/-! ## C8 — the admission gate discards untracked traffic without mutation -/

/-- C8: with the track-all flag off and the subject untracked, each of the
three handlers leaves the state completely unchanged: no log entry, no
status-map entry, no dedup-window change. -/
theorem admission_gate_frame (env : Env) (s : TrackerState) (uid : String)
    (hall : env.autoTrackAll = false)
    (htr : s.trackedUserIds.contains uid = false) :
    (∀ u : PresenceUpdate, u.userId = some uid → presenceStep env s u = s) ∧
    (∀ v : VoiceState, v.userId = uid → voiceStep env s v = s) ∧
    (∀ m : MessageEvent, m.authorId = some uid → handleMessageCreate env m s = s) ∧
    (∀ u : PresenceUpdate, u.userId = some uid →
      (presenceStep env s u).lastKnownStatus.lookup uid = s.lastKnownStatus.lookup uid) := by
  have htr' : uid ∉ s.trackedUserIds := by simpa using htr
  have hp : ∀ u : PresenceUpdate, u.userId = some uid → presenceStep env s u = s := by
    intro u hu
    unfold presenceStep
    rw [hu, hall]
    simp [htr']
  refine ⟨hp, ?_, ?_, fun u hu => by rw [hp u hu]⟩
  · intro v hv
    unfold voiceStep
    rw [hv, hall]
    simp [htr']
  · intro m hm
    unfold handleMessageCreate
    rw [hm, hall]
    simp [htr']

/-- The untracked subject's events used as concrete inputs for C8. -/
def uUntracked : PresenceUpdate :=
  { userId := some "U1", status := some "online", clientStatus := true }

/-- Untracked voice event fixture. -/
def vUntracked : VoiceState := { userId := "U1", channelId := some "C1" }

/-- Untracked message event fixture. -/
def mUntracked : MessageEvent :=
  { authorId := some "U1", authorUsername := "bob", id := some "m1", content := "hi",
    channelId := "C1" }

/-- Witness for C8: events of untracked `U1` leave the (initially empty)
state untouched. -/
theorem admission_gate_frame_witness :
    (envW.autoTrackAll = false) ∧
    (initialState.trackedUserIds.contains "U1" = false) ∧
    (presenceStep envW initialState uUntracked = initialState ∧
     voiceStep envW initialState vUntracked = initialState ∧
     handleMessageCreate envW mUntracked initialState = initialState ∧
     (presenceStep envW initialState uUntracked).lastKnownStatus.lookup "U1" = none) := by
  refine ⟨by decide, by decide, ?_⟩
  have h := admission_gate_frame envW initialState "U1" (by decide) (by decide)
  refine ⟨h.1 uUntracked rfl, h.2.1 vUntracked rfl, h.2.2.1 mUntracked rfl, ?_⟩
  rw [h.2.2.2 uUntracked rfl]
  decide

/-! ## Presence handler normal forms -/

/-- Presence step, status-accepted case: the candidate status differs from
the recorded one and the client-status marker is present, so a status entry
is pushed and the status map updated (plus the optional activity entry and
the end-of-iteration eviction). -/
lemma presenceStep_accept (env : Env) (s : TrackerState) (u : PresenceUpdate)
    (uid : String) (user : UserInfo) (c : String)
    (hid : u.userId = some uid)
    (htrack : (env.autoTrackAll || s.trackedUserIds.contains uid) = true)
    (huser : env.getUser uid = some user)
    (hst : u.status = some c)
    (hdiff : some c ≠ s.lastKnownStatus.lookup uid)
    (hcs : u.clientStatus = true) :
    presenceStep env s u =
      { s with
        lastKnownStatus := mapSet s.lastKnownStatus uid c,
        activityLogs := evictOverflow ((s.activityLogs ++ [statusEntryOf env uid user c]) ++
          (if u.activities.length > 0 then [activityEntryOf env uid user u.activities]
           else [])) } := by
  unfold presenceStep
  simp only [hid, htrack, huser, hst, hcs]
  by_cases hact : u.activities.length > 0
  · simp [hdiff, hact]
  · simp [hdiff, hact]

/-- Presence step, status-rejected case: the candidate status is absent,
repeats the recorded value, or lacks the client-status marker, so no status
entry is pushed and the status map is unchanged. -/
lemma presenceStep_reject (env : Env) (s : TrackerState) (u : PresenceUpdate)
    (uid : String) (user : UserInfo)
    (hid : u.userId = some uid)
    (htrack : (env.autoTrackAll || s.trackedUserIds.contains uid) = true)
    (huser : env.getUser uid = some user)
    (hrej : ∀ c, u.status = some c →
      some c = s.lastKnownStatus.lookup uid ∨ u.clientStatus = false) :
    presenceStep env s u =
      { s with activityLogs := evictOverflow (s.activityLogs ++
          (if u.activities.length > 0 then [activityEntryOf env uid user u.activities]
           else [])) } := by
  unfold presenceStep
  simp only [hid, htrack, huser]
  cases hstat : u.status with
  | none =>
    simp only [hstat]
    by_cases hact : u.activities.length > 0 <;> simp [hact]
  | some c =>
    simp only [hstat]
    have hno : ¬(some c ≠ List.lookup uid s.lastKnownStatus ∧ u.clientStatus = true) := by
      rcases hrej c hstat with h | h
      · intro hcon; exact hcon.1 h
      · intro hcon; rw [h] at hcon; exact Bool.false_ne_true hcon.2
    by_cases hact : u.activities.length > 0 <;> simp [hno, hact]

/-! ## C3 — status entries are produced exactly on marked changes -/

/-- C3: for a tracked, resolvable subject, a status entry is produced if and
only if the update carries a status value differing from the recorded
`lastKnownStatus` and a truthy `clientStatus` marker; on production the
recorded status is updated (first conjunct), otherwise log and status map
gain nothing from the status candidate (second conjunct). -/
theorem status_logged_iff (env : Env) (s : TrackerState) (u : PresenceUpdate)
    (uid : String) (user : UserInfo)
    (hid : u.userId = some uid)
    (htrack : (env.autoTrackAll || s.trackedUserIds.contains uid) = true)
    (huser : env.getUser uid = some user) :
    (∀ c, u.status = some c → some c ≠ s.lastKnownStatus.lookup uid →
      u.clientStatus = true →
      presenceStep env s u =
        { s with
          lastKnownStatus := mapSet s.lastKnownStatus uid c,
          activityLogs := evictOverflow ((s.activityLogs ++ [statusEntryOf env uid user c]) ++
            (if u.activities.length > 0 then [activityEntryOf env uid user u.activities]
             else [])) }) ∧
    ((∀ c, u.status = some c →
        some c = s.lastKnownStatus.lookup uid ∨ u.clientStatus = false) →
      presenceStep env s u =
        { s with activityLogs := evictOverflow (s.activityLogs ++
            (if u.activities.length > 0 then [activityEntryOf env uid user u.activities]
             else [])) }) :=
  ⟨fun c h1 h2 h3 => presenceStep_accept env s u uid user c hid htrack huser h1 h2 h3,
   fun h => presenceStep_reject env s u uid user hid htrack huser h⟩

/-- State with `u1` tracked and recorded status `online`. -/
def sC3 : TrackerState := { trackedUserIds := ["u1"], lastKnownStatus := [("u1", "online")] }

/-- Presence update: `u1` goes `idle` with the client-status marker. -/
def updIdle : PresenceUpdate :=
  { userId := some "u1", status := some "idle", clientStatus := true }

/-- Presence update: `u1` repeats `online` with the client-status marker. -/
def updSame : PresenceUpdate :=
  { userId := some "u1", status := some "online", clientStatus := true }

/-- Witness for C3: with recorded status `online`, a marked `idle` update
produces exactly one status entry and updates the map; a marked repeat of
`online` produces nothing. -/
theorem status_logged_iff_witness :
    (updIdle.userId = some "u1") ∧
    ((envW.autoTrackAll || sC3.trackedUserIds.contains "u1") = true) ∧
    (envW.getUser "u1" = some userAlice) ∧
    (some "idle" ≠ sC3.lastKnownStatus.lookup "u1") ∧
    (presenceStep envW sC3 updIdle =
      { sC3 with
        lastKnownStatus := mapSet sC3.lastKnownStatus "u1" "idle",
        activityLogs := evictOverflow ((sC3.activityLogs ++ [statusEntryOf envW "u1" userAlice "idle"]) ++
          (if updIdle.activities.length > 0 then [activityEntryOf envW "u1" userAlice updIdle.activities]
           else [])) }) ∧
    (presenceStep envW sC3 updSame =
      { sC3 with activityLogs := evictOverflow (sC3.activityLogs ++
          (if updSame.activities.length > 0 then [activityEntryOf envW "u1" userAlice updSame.activities]
           else [])) }) := by
  refine ⟨rfl, by decide, by decide, by decide, ?_, ?_⟩
  · exact (status_logged_iff envW sC3 updIdle "u1" userAlice rfl (by decide) (by decide)).1
      "idle" rfl (by decide) rfl
  · refine (status_logged_iff envW sC3 updSame "u1" userAlice rfl (by decide) (by decide)).2 ?_
    intro c hc
    left
    have hco : c = "online" := (Option.some.inj hc).symm
    subst hco
    decide

/-! ## C1 — the 1000-entry cap is broken by double-push presence updates -/

/-- Filler entry used to build a log already at capacity. -/
def padEntry : ActivityLog :=
  { userId := "pad", username := "pad", timestamp := 1, type := LogType.message }

/-- A state whose log already holds exactly `MAX_LOGS` entries. -/
def fullState : TrackerState :=
  { activityLogs := List.replicate 1000 padEntry, trackedUserIds := ["u1"] }

/-- A presence update that pushes two entries in one loop iteration: a
marked status change plus a non-empty activity list. -/
def overflowUpdate : PresenceUpdate :=
  { userId := some "u1", status := some "online", clientStatus := true,
    activities := [{ name := "Game", type := 0 }] }

/-- Length of the log after the single-shot eviction. -/
lemma length_evictOverflow (l : List ActivityLog) :
    (evictOverflow l).length = if l.length > MAX_LOGS then l.length - 1 else l.length := by
  unfold evictOverflow
  split
  next h => simp [List.length_tail, h]
  next h => simp [h]

/-- C1 fails on the code: starting from a log at capacity (1000 entries),
one presence update that yields both a status entry and an activity entry
pushes twice but evicts only once, leaving 1001 entries — the claimed
`length ≤ 1000` invariant is violated after this insertion (and repeats
grow the log without bound, one excess entry per such update). -/
theorem presence_update_breaks_log_cap :
    (handlePresenceUpdates envW [overflowUpdate] fullState).activityLogs.length = 1001 ∧
    1001 > MAX_LOGS := by
  constructor
  · unfold handlePresenceUpdates
    simp only [List.foldl_cons, List.foldl_nil]
    rw [presenceStep_accept envW fullState overflowUpdate "u1" userAlice "online"
      rfl (by decide) (by decide) rfl (by decide) rfl]
    rw [if_pos (show overflowUpdate.activities.length > 0 by decide)]
    have hfull : fullState.activityLogs.length = 1000 := by
      show (List.replicate 1000 padEntry).length = 1000
      exact List.length_replicate 1000 padEntry
    have hX : ((fullState.activityLogs ++ [statusEntryOf envW "u1" userAlice "online"]) ++
        [activityEntryOf envW "u1" userAlice overflowUpdate.activities]).length = 1002 := by
      rw [List.length_append, List.length_append, hfull]
      rfl
    simp only [length_evictOverflow, hX]
    decide
  · decide

/-! ## C2 — a join at timestamp 0 never closes -/

/-- A voice log entry of subject `u1` at a given timestamp and action. -/
def voiceLogAt (ts : Int) (a : VoiceAction) : ActivityLog :=
  { userId := "u1", username := "alice", timestamp := ts, type := LogType.voice,
    voiceChannel := some { channelId := "C1", channelName := "General", action := a,
                           guildId := "g1", guildName := "G" } }

/-- Local-hour function used for concrete statistics inputs. -/
def hourOfDemo : Int → Nat := fun t => t.toNat % 24

/-- Day-of-week function used for concrete statistics inputs. -/
def dayOfDemo : Int → Nat := fun t => t.toNat % 7

/-- C2 fails on the code at its own example: Join at t=0 followed by Leave
at t=600000 yields 0 voice minutes, not 10, because the open-join test is
JS numeric truthiness (`lastJoinTime`), which treats the recorded
timestamp 0 the same as "no open join".  The identical pair shifted to a
nonzero join timestamp yields the claimed 10 minutes. -/
theorem join_at_zero_lost :
    (calculateStats hourOfDemo dayOfDemo
        [voiceLogAt 0 VoiceAction.join, voiceLogAt 600000 VoiceAction.leave]
        (some "u1")).totalVoiceMinutes = 0 ∧
    (calculateStats hourOfDemo dayOfDemo
        [voiceLogAt 60000 VoiceAction.join, voiceLogAt 660000 VoiceAction.leave]
        (some "u1")).totalVoiceMinutes = 10 := by
  constructor
  · have h : (calculateStats hourOfDemo dayOfDemo
        [voiceLogAt 0 VoiceAction.join, voiceLogAt 600000 VoiceAction.leave]
        (some "u1")).totalVoiceMinutes = jsRound 0 := by
      simp [calculateStats, scopedLogs, voiceLogAt, voiceScanStep]
    rw [h, jsRound, zero_add, Int.floor_eq_iff]
    · norm_num
  · have h : (calculateStats hourOfDemo dayOfDemo
        [voiceLogAt 60000 VoiceAction.join, voiceLogAt 660000 VoiceAction.leave]
        (some "u1")).totalVoiceMinutes =
        jsRound (((660000 - 60000 : ℤ) : ℚ) / (1000 * 60)) := by
      simp [calculateStats, scopedLogs, voiceLogAt, voiceScanStep]
    rw [h, jsRound, Int.floor_eq_iff]
    · norm_num

/-! ## C9 — load failures are caught, but partial loads survive -/

/-- Models `JSON.parse` plus `new Set(...)` on the inputs used below: the
well-formed id array parses, anything else throws. -/
def parseIdsDemo : String → Option (List String) :=
  fun str => if str = "[\"u1\"]" then some ["u1"] else none

/-- Models `JSON.parse` throwing on the corrupt log payload used below. -/
def parseLogsFail : String → Option (List ActivityLog) := fun _ => none

/-- Counterexample to C9 as stated: persisted data whose tracked-ids field
parses but whose log field is corrupt does not recover to an empty
tracked-id set — the tracked ids assigned before the caught parse failure
survive, so loading this corrupt store does not "start from an empty
tracked-id set". -/
theorem load_partial_failure_counterexample :
    loadFromSettings parseIdsDemo parseLogsFail
        { trackedUsers := "[\"u1\"]", activityLogs := "corrupt" } initialState =
      { initialState with trackedUserIds := ["u1"] } ∧
    (["u1"] : List String) ≠ [] := by
  constructor
  · decide
  · decide

/-- C9 amended: loading never faults (it is a total function); a failure
before any assignment leaves the state untouched (in particular the
initially empty log and tracked set), while a failure parsing the log
field after the tracked-ids field has parsed keeps the parsed tracked ids
and only the log stays at its prior (empty) value. -/
theorem load_failure_recovery (parseIds : String → Option (List String))
    (parseLogs : String → Option (List ActivityLog)) (store : SettingsStore)
    (s : TrackerState) :
    (store.trackedUsers = "" → store.activityLogs = "" →
      loadFromSettings parseIds parseLogs store s = s) ∧
    (store.trackedUsers ≠ "" → parseIds store.trackedUsers = none →
      loadFromSettings parseIds parseLogs store s = s) ∧
    (store.trackedUsers = "" → store.activityLogs ≠ "" →
      parseLogs store.activityLogs = none →
      loadFromSettings parseIds parseLogs store s = s) ∧
    (∀ ids, store.trackedUsers ≠ "" → parseIds store.trackedUsers = some ids →
      store.activityLogs ≠ "" → parseLogs store.activityLogs = none →
      loadFromSettings parseIds parseLogs store s = { s with trackedUserIds := ids }) := by
  refine ⟨?_, ?_, ?_, ?_⟩
  · intro h1 h2
    simp [loadFromSettings, h1, h2]
  · intro h1 h2
    simp [loadFromSettings, h1, h2]
  · intro h1 h2 h3
    simp [loadFromSettings, h1, h2, h3]
  · intro ids h1 h2 h3 h4
    simp [loadFromSettings, h1, h2, h3, h4]

/-- Witness for the amended C9: a corrupt tracked-ids field keeps the empty
initial state; a parsed tracked-ids field followed by a corrupt log field
keeps the parsed ids and the empty log. -/
theorem load_failure_recovery_witness :
    ((("oops" : String) ≠ "") ∧ parseIdsDemo "oops" = none ∧
      loadFromSettings parseIdsDemo parseLogsFail
        { trackedUsers := "oops", activityLogs := "" } initialState = initialState) ∧
    ((("[\"u1\"]" : String) ≠ "") ∧ parseIdsDemo "[\"u1\"]" = some ["u1"] ∧
      (("corrupt" : String) ≠ "") ∧ parseLogsFail "corrupt" = none ∧
      loadFromSettings parseIdsDemo parseLogsFail
        { trackedUsers := "[\"u1\"]", activityLogs := "corrupt" } initialState =
        { initialState with trackedUserIds := ["u1"] }) := by
  refine ⟨⟨by decide, by decide, ?_⟩, ⟨by decide, by decide, by decide, by decide, ?_⟩⟩
  · exact (load_failure_recovery parseIdsDemo parseLogsFail
      { trackedUsers := "oops", activityLogs := "" } initialState).2.1 (by decide) (by decide)
  · exact (load_failure_recovery parseIdsDemo parseLogsFail
      { trackedUsers := "[\"u1\"]", activityLogs := "corrupt" } initialState).2.2.2
      ["u1"] (by decide) (by decide) (by decide) (by decide)

/-! ## C6 — the dedup window: admit-once, trim to the recent 500 -/

/-- Rejection case of `observe`: a seen id is rejected and the window kept. -/
lemma observe_seen (w : List String) (i : String) (h : i ∈ w) :
    observe i w = (false, w) := by
  unfold observe
  simp [h]

/-- Admission without trim: with room left, the id is appended. -/
lemma observe_fresh_small (w : List String) (i : String) (h : i ∉ w)
    (hlen : w.length < 1000) :
    observe i w = (true, w ++ [i]) := by
  unfold observe
  have hgt : ¬1000 < w.length + 1 := by omega
  simp [h, hgt]

/-- Admission with trim: at a window of exactly 1000 ids, a fresh id is
appended and the window is cut to its most recent 500 members. -/
lemma observe_fresh_trim (w : List String) (i : String) (h : i ∉ w)
    (hlen : w.length = 1000) :
    observe i w = (true, (w ++ [i]).drop 501) := by
  unfold observe
  simp [h, hlen]

/-- The admitted id always survives the trim (it is the newest member). -/
lemma observe_fresh_fst_mem (w : List String) (i : String) (h : i ∉ w) :
    (observe i w).1 = true ∧ i ∈ (observe i w).2 := by
  unfold observe
  by_cases hgt : 1000 < w.length + 1
  · have hk : w.length - 499 ≤ w.length := by omega
    simp [h, hgt, List.drop_append_of_le_length hk]
  · simp [h, hgt]

/-- Folding fresh ids into a window with room appends them in call order. -/
lemma ingestAll_fill : ∀ (l w : List String), (w ++ l).Nodup →
    (w ++ l).length ≤ 1000 → ingestAll l w = w ++ l := by
  intro l
  induction l with
  | nil =>
    intro w _ _
    simp [ingestAll]
  | cons a t ih =>
    intro w hnd hlen
    have ha : a ∉ w := by
      intro hmem
      exact (List.nodup_append.mp hnd).2.2 hmem (List.mem_cons_self a t)
    have hwlen : w.length < 1000 := by
      rw [List.length_append, List.length_cons] at hlen
      omega
    have hstep : ingestAll (a :: t) w = ingestAll t ((observe a w).2) := rfl
    rw [hstep, observe_fresh_small w a ha hwlen]
    have hcons : w ++ a :: t = (w ++ [a]) ++ t := by simp
    have h1 : ((w ++ [a]) ++ t).Nodup := by rw [← hcons]; exact hnd
    have h2 : ((w ++ [a]) ++ t).length ≤ 1000 := by rw [← hcons]; exact hlen
    show ingestAll t (w ++ [a]) = w ++ a :: t
    rw [ih (w ++ [a]) h1 h2, ← hcons]

/-- Folding `observe` distributes over list append. -/
lemma ingestAll_append (a b w : List String) :
    ingestAll (a ++ b) w = ingestAll b (ingestAll a w) := by
  unfold ingestAll
  exact List.foldl_append _ _ _ _

/-- Running 1001 pairwise distinct ids through the dedup window from empty
leaves exactly the most recent 500 of them. -/
lemma ingestAll_overflow (l : List String) (hnd : l.Nodup) (hlen : l.length = 1001) :
    ingestAll l [] = l.drop 501 := by
  have hsplit : l.take 1000 ++ l.drop 1000 = l := List.take_append_drop 1000 l
  obtain ⟨x, hx⟩ : ∃ x, l.drop 1000 = [x] := by
    refine List.length_eq_one.mp ?_
    rw [List.length_drop, hlen]
  have htk : (l.take 1000).length = 1000 := by
    rw [List.length_take, hlen]
    omega
  have hnd2 : (l.take 1000 ++ l.drop 1000).Nodup := by rw [hsplit]; exact hnd
  have hxa : x ∉ l.take 1000 := by
    intro hmem
    refine (List.nodup_append.mp hnd2).2.2 hmem ?_
    rw [hx]
    exact List.mem_singleton_self x
  calc ingestAll l [] = ingestAll (l.take 1000 ++ l.drop 1000) [] := by rw [hsplit]
    _ = ingestAll (l.drop 1000) (ingestAll (l.take 1000) []) := ingestAll_append _ _ _
    _ = ingestAll [x] (l.take 1000) := by
        rw [hx, ingestAll_fill (l.take 1000) [] (by simpa using hnd.sublist (List.take_sublist 1000 l))
          (by rw [List.nil_append, htk]), List.nil_append]
    _ = (observe x (l.take 1000)).2 := rfl
    _ = ((l.take 1000) ++ [x]).drop 501 := by rw [observe_fresh_trim _ _ hxa htk]
    _ = l.drop 501 := by rw [← hx, hsplit]

/-- C6: the net effect of `handleMessageCreate` on the dedup window is
`observe` (first conjunct, including that a rejected duplicate leaves the
whole state unchanged); `observe` admits a fresh id and rejects a seen one;
the insertion that pushes the window past 1000 trims it to its 500 most
recently inserted ids; and 1001 distinct insertions from empty leave
exactly the last 500 ids, the earliest ones evicted. -/
theorem dedup_window_contract :
    (∀ (env : Env) (m : MessageEvent) (s : TrackerState) (uid i : String),
      m.authorId = some uid →
      (env.autoTrackAll || s.trackedUserIds.contains uid) = true → m.id = some i →
      (handleMessageCreate env m s).processedMessageIds = (observe i s.processedMessageIds).2 ∧
      ((observe i s.processedMessageIds).1 = false → handleMessageCreate env m s = s)) ∧
    (∀ (w : List String) (i : String), i ∉ w →
      (observe i w).1 = true ∧ i ∈ (observe i w).2) ∧
    (∀ (w : List String) (i : String), i ∈ w → observe i w = (false, w)) ∧
    (∀ (w : List String) (i : String), i ∉ w → w.length = 1000 →
      (observe i w).2 = (w ++ [i]).drop 501 ∧ ((w ++ [i]).drop 501).length = 500) ∧
    (∀ l : List String, l.Nodup → l.length = 1001 →
      ingestAll l [] = l.drop 501 ∧ (ingestAll l []).length = 500 ∧
      (∀ x ∈ l.drop 501, x ∈ ingestAll l []) ∧
      (∀ x ∈ l.take 501, x ∉ ingestAll l [])) := by
  refine ⟨?_, observe_fresh_fst_mem, observe_seen, ?_, ?_⟩
  · intro env m s uid i hid htrack hmid
    unfold handleMessageCreate
    simp only [hid, htrack, hmid]
    by_cases hc : i ∈ s.processedMessageIds
    · rw [observe_seen _ _ hc]
      simp [hc]
    · constructor
      · by_cases hgt : 1000 < s.processedMessageIds.length + 1
        · have ho : (observe i s.processedMessageIds).2 =
              List.drop (s.processedMessageIds.length - 499) (s.processedMessageIds ++ [i]) := by
            unfold observe
            simp [hc, hgt]
          rw [ho]
          simp [hc, hgt]
        · have ho : (observe i s.processedMessageIds).2 = s.processedMessageIds ++ [i] := by
            unfold observe
            simp [hc, hgt]
          rw [ho]
          simp [hc, hgt]
      · intro hfalse
        have := (observe_fresh_fst_mem s.processedMessageIds i hc).1
        rw [this] at hfalse
        cases hfalse
  · intro w i h hlen
    have h1 : (observe i w).2 = (w ++ [i]).drop 501 := by
      rw [observe_fresh_trim w i h hlen]
    refine ⟨h1, ?_⟩
    rw [List.length_drop, List.length_append, hlen]
    simp
  · intro l hnd hlen
    have heq : ingestAll l [] = l.drop 501 := ingestAll_overflow l hnd hlen
    refine ⟨heq, ?_, ?_, ?_⟩
    · rw [heq, List.length_drop, hlen]
    · intro x hx
      rw [heq]
      exact hx
    · intro x hx
      rw [heq]
      exact fun hd => List.disjoint_take_drop hnd (le_refl 501) hx hd

/-- An injection of indices into distinct message-id strings. -/
def natId (n : Nat) : String := String.mk (List.replicate n 'a')

/-- Distinct indices give distinct ids (their lengths differ). -/
lemma natId_injective : Function.Injective natId := by
  intro a b h
  have h2 := congrArg (fun s => s.data.length) h
  simpa [natId] using h2

/-- A list of 1001 pairwise distinct message ids. -/
def ids1001 : List String := (List.range 1001).map natId

/-- Witness for C6: the two-call admit/reject pair on `m1`, and the
1001-distinct-ids run ending with exactly the recent 500 (the first id
evicted). -/
theorem dedup_window_contract_witness :
    (observe "m1" []).1 = true ∧ observe "m1" ["m1"] = (false, ["m1"]) ∧
    ids1001.Nodup ∧ ids1001.length = 1001 ∧
    ingestAll ids1001 [] = ids1001.drop 501 ∧ (ingestAll ids1001 []).length = 500 ∧
    natId 0 ∉ ingestAll ids1001 [] := by
  have hnd : ids1001.Nodup := List.Nodup.map natId_injective (List.nodup_range 1001)
  have hlen : ids1001.length = 1001 := by simp [ids1001]
  refine ⟨?_, ?_, hnd, hlen, ?_, ?_, ?_⟩
  · exact (dedup_window_contract.2.1 [] "m1" (by simp)).1
  · exact dedup_window_contract.2.2.1 ["m1"] "m1" (by simp)
  · exact (dedup_window_contract.2.2.2.2 ids1001 hnd hlen).1
  · exact (dedup_window_contract.2.2.2.2 ids1001 hnd hlen).2.1
  · refine (dedup_window_contract.2.2.2.2 ids1001 hnd hlen).2.2.2 (natId 0) ?_
    have htake : ids1001.take 501 = (List.range 501).map natId := by
      rw [ids1001, ← List.map_take, List.take_range]
      norm_num
    rw [htake]
    exact List.mem_map_of_mem natId (List.mem_range.mpr (by omega))

/-! ## C7 — hour histogram and busiest hour -/

/-- Specification-side recursion for the first maximum of a `(hour, count)`
list: the element a stable count-descending sort brings to the front. -/
def firstBest : List (Nat × Nat) → Option (Nat × Nat)
  | [] => none
  | x :: l =>
    match firstBest l with
    | none => some x
    | some b => some (if x.2 ≥ b.2 then x else b)

/-- Head of a stable descending insertion. -/
lemma head_insertDesc (x : Nat × Nat) (l : List (Nat × Nat)) :
    (insertDesc x l).head? = some (match l.head? with
      | none => x
      | some y => if x.2 ≥ y.2 then x else y) := by
  cases l with
  | nil => rfl
  | cons y ys =>
    by_cases h : x.2 ≥ y.2 <;> simp [insertDesc, h]

/-- The head of the stable descending sort is the first maximum. -/
lemma head_sortDesc : ∀ l : List (Nat × Nat), (sortDesc l).head? = firstBest l := by
  intro l
  induction l with
  | nil => rfl
  | cons x t ih =>
    show (insertDesc x (sortDesc t)).head? = firstBest (x :: t)
    rw [head_insertDesc, ih]
    cases hb : firstBest t <;> simp [firstBest, hb]

/-- `firstBest` over the tabulation of `f` on a contiguous index range picks
an index of maximal value, and every strictly earlier index has a strictly
smaller value (the tie-break goes to the earliest index). -/
lemma firstBest_range' : ∀ (m k : Nat) (f : Nat → Nat), 0 < m →
    ∃ b, k ≤ b ∧ b < k + m ∧
      firstBest ((List.range' k m).map (fun h => (h, f h))) = some (b, f b) ∧
      (∀ h, k ≤ h → h < k + m → f h ≤ f b) ∧
      (∀ h, k ≤ h → h < b → f h < f b) := by
  intro m
  induction m with
  | zero => intro k f h; exact absurd h (lt_irrefl 0)
  | succ m ih =>
    intro k f _
    cases Nat.eq_zero_or_pos m with
    | inl hm0 =>
      subst hm0
      refine ⟨k, le_refl k, by omega, by rfl, ?_, ?_⟩
      · intro h hk hlt
        have he : h = k := by omega
        subst he
        exact le_refl _
      · intro h hk hlt
        omega
    | inr hm =>
      obtain ⟨b, hkb, hbm, hfb, hmax, hstrict⟩ := ih (k + 1) f hm
      by_cases hcase : f b ≤ f k
      · refine ⟨k, le_refl k, by omega, ?_, ?_, ?_⟩
        · rw [List.range'_succ]
          simp only [List.map_cons]
          simp [firstBest, hfb, hcase]
        · intro h hk hlt
          rcases Nat.eq_or_lt_of_le hk with he | hlt2
          · rw [← he]
          · exact le_trans (hmax h (by omega) (by omega)) hcase
        · intro h hk hlt
          omega
      · push_neg at hcase
        refine ⟨b, by omega, by omega, ?_, ?_, ?_⟩
        · rw [List.range'_succ]
          simp only [List.map_cons]
          simp [firstBest, hfb, Nat.not_le_of_lt hcase]
        · intro h hk hlt
          rcases Nat.eq_or_lt_of_le hk with he | hlt2
          · rw [← he]
            exact le_of_lt hcase
          · exact hmax h (by omega) (by omega)
        · intro h hk hlt
          rcases Nat.eq_or_lt_of_le hk with he | hlt2
          · rw [← he]
            exact hcase
          · exact hstrict h (by omega) hlt

/-- The reported busiest hour is a maximal bucket among 0–23, and any other
bucket with the same count has a higher (or equal) hour index. -/
lemma mostActiveHourOf_spec (counts : Nat → Nat) :
    ∃ b, b < 24 ∧ mostActiveHourOf counts = some (b, counts b) ∧
      (∀ h, h < 24 → counts h ≤ counts b) ∧
      (∀ h, h < 24 → counts h = counts b → b ≤ h) := by
  obtain ⟨b, h0, hlt, hfb, hmax, hstrict⟩ := firstBest_range' 24 0 counts (by omega)
  refine ⟨b, by omega, ?_, ?_, ?_⟩
  · rw [mostActiveHourOf, head_sortDesc, List.range_eq_range']
    exact hfb
  · intro h hh
    exact hmax h (Nat.zero_le h) (by omega)
  · intro h hh he
    by_contra hbh
    push_neg at hbh
    exact Nat.ne_of_lt (hstrict h (Nat.zero_le h) hbh) he

/-- The histogram fold counts, per bucket, the entries whose hour hits it. -/
lemma hourCountsOf_eq (hourOf : Int → Nat) :
    ∀ (logs : List ActivityLog) (m : Nat → Nat) (h : Nat),
      (logs.foldl (fun m log => bumpHour m (hourOf log.timestamp)) m) h =
        m h + (logs.filter (fun l => hourOf l.timestamp == h)).length := by
  intro logs
  induction logs with
  | nil =>
    intro m h
    simp
  | cons a t ih =>
    intro m h
    simp only [List.foldl_cons]
    rw [ih]
    by_cases hc : hourOf a.timestamp = h
    · subst hc
      simp [bumpHour, List.filter_cons]
      omega
    · simp [bumpHour, List.filter_cons, hc, Ne.symm hc]

/-- The histogram field of the statistics record, unfolded. -/
lemma calculateStats_hourCounts (hourOf dayOf : Int → Nat) (logs : List ActivityLog)
    (userId : Option String) :
    (calculateStats hourOf dayOf logs userId).hourCounts =
      hourCountsOf hourOf (scopedLogs logs userId) := by
  simp only [calculateStats]

/-- The busiest-hour field of the statistics record, unfolded. -/
lemma calculateStats_mostActiveHour (hourOf dayOf : Int → Nat) (logs : List ActivityLog)
    (userId : Option String) :
    (calculateStats hourOf dayOf logs userId).mostActiveHour =
      mostActiveHourOf (hourCountsOf hourOf (scopedLogs logs userId)) := by
  simp only [calculateStats]

/-- C7: each histogram bucket h (h < 24) counts exactly the scoped entries
whose local hour is h, and the reported busiest hour is a bucket of maximal
count whose index is lowest among equal counts. -/
theorem hour_histogram_and_busiest (hourOf : Int → Nat) (dayOf : Int → Nat)
    (logs : List ActivityLog) (userId : Option String)
    (hb : ∀ t, hourOf t < 24) :
    (∀ h, h < 24 →
      (calculateStats hourOf dayOf logs userId).hourCounts h =
        ((scopedLogs logs userId).filter (fun l => hourOf l.timestamp == h)).length) ∧
    (∃ b, b < 24 ∧
      (calculateStats hourOf dayOf logs userId).mostActiveHour =
        some (b, (calculateStats hourOf dayOf logs userId).hourCounts b) ∧
      (∀ h, h < 24 →
        (calculateStats hourOf dayOf logs userId).hourCounts h ≤
          (calculateStats hourOf dayOf logs userId).hourCounts b) ∧
      (∀ h, h < 24 →
        (calculateStats hourOf dayOf logs userId).hourCounts h =
          (calculateStats hourOf dayOf logs userId).hourCounts b → b ≤ h)) := by
  constructor
  · intro h _
    rw [calculateStats_hourCounts]
    unfold hourCountsOf
    rw [hourCountsOf_eq]
    simp
  · rw [calculateStats_mostActiveHour, calculateStats_hourCounts]
    exact mostActiveHourOf_spec (hourCountsOf hourOf (scopedLogs logs userId))

/-- A minimal entry at a given timestamp, used for histogram inputs. -/
def entryAt (ts : Int) : ActivityLog :=
  { userId := "u1", username := "alice", timestamp := ts, type := LogType.message }

/-- Entries at local hours 3, 3, 3 and 9. -/
def statsLogs : List ActivityLog := [entryAt 3, entryAt 3, entryAt 3, entryAt 9]

/-- Witness for C7 on the hours [3,3,3,9]: bucket 3 holds 3, bucket 9 holds
1, the busiest hour is 3 with count 3, and the bucket characterisation is
the theorem's instance. -/
theorem hour_histogram_witness :
    (∀ t, hourOfDemo t < 24) ∧
    (calculateStats hourOfDemo dayOfDemo statsLogs none).hourCounts 3 = 3 ∧
    (calculateStats hourOfDemo dayOfDemo statsLogs none).hourCounts 9 = 1 ∧
    (calculateStats hourOfDemo dayOfDemo statsLogs none).mostActiveHour = some (3, 3) ∧
    (∀ h, h < 24 →
      (calculateStats hourOfDemo dayOfDemo statsLogs none).hourCounts h =
        ((scopedLogs statsLogs none).filter (fun l => hourOfDemo l.timestamp == h)).length) := by
  have hb : ∀ t : Int, hourOfDemo t < 24 := fun t => Nat.mod_lt _ (by omega)
  refine ⟨hb, by decide, by decide, by decide, ?_⟩
  exact (hour_histogram_and_busiest hourOfDemo dayOfDemo statsLogs none hb).1

end ActivityTracker
